import Mathlib

/-!
Shallow embedding of the compositor protocol state synchronizer implemented in
src/src/wayland_subscription.rs.

Modelling conventions:
* Wayland protocol handles (ExtWorkspaceHandleV1, ExtForeignToplevelHandleV1,
  WlOutput) are opaque server-issued ids; we model them as naturals.
* Rust HashMaps are modelled as association lists with unique keys; the list
  order stands for the map's (unspecified) iteration order.  Insertion
  replaces in place or appends; removal drops the key; equality of maps is
  key/value containment in both directions, as with Rust's HashMap PartialEq.
* The protocol-library state objects (WorkspaceState, ToplevelInfoState,
  OutputState) that handlers query are modelled as a read-only environment
  value supplied with each incoming message.
* The mpsc channel is a bounded FIFO; sends are recorded both in the bounded
  channel (dropping when full) and in a ghost list of all produced events.
-/

/-- Opaque workspace handle (ExtWorkspaceHandleV1). -/
abbrev WsHandle := Nat

/-- Opaque toplevel handle (ExtForeignToplevelHandleV1). -/
abbrev TlHandle := Nat

/-- Opaque display output (WlOutput). -/
abbrev WlOutputId := Nat

/-- Rust `u32 as i32` cast. -/
def toI32 (n : Nat) : Int :=
  if n % 2 ^ 32 < 2 ^ 31 then (n % 2 ^ 32 : Int) else (n % 2 ^ 32 : Int) - 2 ^ 32

/-- First-match lookup in an association list (HashMap::get). -/
def alookup {α β : Type} [DecidableEq α] : List (α × β) → α → Option β
  | [], _ => none
  | (k, v) :: rest, a => if a = k then some v else alookup rest a

/-- HashMap::insert: replace the value in place when the key is present,
append otherwise. -/
def ainsert {α β : Type} [DecidableEq α] : List (α × β) → α → β → List (α × β)
  | [], k, v => [(k, v)]
  | (k1, v1) :: rest, k, v =>
      if k = k1 then (k, v) :: rest else (k1, v1) :: ainsert rest k v

/-- HashMap::remove: drop every entry with the given key (for unique-keyed
lists this is exactly one entry). -/
def aerase {α β : Type} [DecidableEq α] : List (α × β) → α → List (α × β)
  | [], _ => []
  | (k1, v) :: rest, k => if k1 = k then aerase rest k else (k1, v) :: aerase rest k

/-- Keys of the map occur at most once. -/
def keysNodup {α β : Type} (l : List (α × β)) : Prop :=
  (l.map Prod.fst).Nodup

/-- Rust HashMap PartialEq: value-level map equality (mutual containment). -/
def eqm {α β : Type} [DecidableEq α] [DecidableEq β] (m1 m2 : List (α × β)) : Bool :=
  m1.all (fun p => decide (alookup m2 p.1 = some p.2)) &&
  m2.all (fun p => decide (alookup m1 p.1 = some p.2))

/-- cctk Workspace info, as read from WorkspaceState::workspace_info. -/
structure WorkspaceInfo where
  handle : WsHandle
  name : String
  stateActive : Bool
  coordinates : List Nat
deriving DecidableEq

/-- AppWorkspace (mirrored workspace record). -/
structure AppWorkspace where
  handle : WsHandle
  name : String
  is_active : Bool
  coordinates : Int × Int
deriving DecidableEq

/-- AppWorkspace::new. -/
def AppWorkspace.new (info : WorkspaceInfo) : Option AppWorkspace :=
  let x := info.coordinates.getD 0 0
  let y := info.coordinates.getD 1 0
  some { handle := info.handle, name := info.name,
         is_active := info.stateActive, coordinates := (toI32 x, toI32 y) }

/-- cctk ToplevelInfo, as read from ToplevelInfoState::info. -/
structure ToplevelInfo where
  foreign_toplevel : TlHandle
  app_id : String
  identifier : String
  geometry : List (WlOutputId × (Int × Int))
  stateActivated : Bool
  workspace : List WsHandle
deriving DecidableEq

/-- AppToplevel (mirrored toplevel record). -/
structure AppToplevel where
  handle : TlHandle
  app_id : String
  is_active : Bool
  ws_handle : WsHandle
  coordinates : Int × Int
deriving DecidableEq

/-- AppToplevel::new. -/
def AppToplevel.new (info : ToplevelInfo) (workspace : AppWorkspace)
    (wl_output : Option WlOutputId) : AppToplevel :=
  let coordinates :=
    match wl_output with
    | some o =>
        match alookup info.geometry o with
        | some g => g
        | none => ((0 : Int), (0 : Int))
    | none => ((0 : Int), (0 : Int))
  { handle := info.foreign_toplevel, app_id := info.app_id,
    is_active := info.stateActivated, ws_handle := workspace.handle,
    coordinates := coordinates }

/-- WaylandEvent. -/
inductive WaylandEvent where
  | WorkspacesChanged (v : List AppWorkspace)
  | ToplevelsUpdated (m : List (WsHandle × List (TlHandle × AppToplevel)))
deriving DecidableEq

/-- A cctk workspace group: member outputs and member workspaces. -/
structure WorkspaceGroup where
  outputs : List WlOutputId
  workspaces : List WsHandle
deriving DecidableEq

/-- The protocol-library state the handlers read: workspace groups and the
info lookups of WorkspaceState / ToplevelInfoState / OutputState. -/
structure ProtocolEnv where
  workspaceGroups : List WorkspaceGroup
  workspaceInfos : List (WsHandle × WorkspaceInfo)
  toplevelInfos : List (TlHandle × ToplevelInfo)
  outputInfos : List (WlOutputId × Option String)
deriving DecidableEq

/-- The mirrored AppData state (the maps mutated by the dispatch thread),
together with the channel: `chan` is the bounded channel content and `sent`
is a ghost trace of every event passed to send_event. -/
structure AppData where
  chan : List WaylandEvent
  sent : List WaylandEvent
  workspaces : List (WsHandle × AppWorkspace)
  toplevels : List (TlHandle × AppToplevel)
  workspace_toplevels : List (WsHandle × List (TlHandle × AppToplevel))
  configured_output : String
  expected_output : Option WlOutputId
deriving DecidableEq

/-- Channel capacity fixed at the call site mpsc::channel(16) in start. -/
def chanCapacity : Nat := 16

/-- Modelled from the spec: the bounded mpsc channel itself is external
library code; per the Channel Bridge contract, try_send enqueues when a slot
is free and silently drops the event when the channel is full.  The ghost
field `sent` additionally records every produced event. -/
def sendEvent (st : AppData) (ev : WaylandEvent) : AppData :=
  { st with
    sent := st.sent ++ [ev]
    chan := if st.chan.length < chanCapacity then st.chan ++ [ev] else st.chan }

/-- AppData::get_workspace_from_handle. -/
def getWorkspaceFromHandle (env : ProtocolEnv) (h : WsHandle) : Option AppWorkspace :=
  match alookup env.workspaceInfos h with
  | some wsInfo => AppWorkspace.new wsInfo
  | none => none

/-- AppData::get_toplevel_from_handle. -/
def getToplevelFromHandle (env : ProtocolEnv) (st : AppData) (h : TlHandle) :
    Option AppToplevel :=
  match alookup env.toplevelInfos h with
  | none => none
  | some tlInfo =>
    match (tlInfo.workspace.filterMap (getWorkspaceFromHandle env)).getLast? with
    | none => none
    | some ws => some (AppToplevel.new tlInfo ws st.expected_output)

/-- AppData::get_matching_toplevel. -/
def getMatchingToplevel (st : AppData) (toplevel : AppToplevel) : Option AppToplevel :=
  match alookup st.workspace_toplevels toplevel.ws_handle with
  | some ws_toplevels => alookup ws_toplevels toplevel.handle
  | none => none

/-- AppData::is_active_output. -/
def isActiveOutput (st : AppData) (output : WlOutputId) : Bool :=
  st.expected_output.isNone || decide (st.expected_output = some output)

/-- AppData::remove_toplevel; the Bool is the `removed` return value. -/
def removeToplevel (st : AppData) (handle : TlHandle) : AppData × Bool :=
  match alookup st.toplevels handle with
  | some toplevel =>
    let st1 := { st with toplevels := aerase st.toplevels handle }
    match alookup st1.workspace_toplevels toplevel.ws_handle with
    | some ws_toplevels =>
      let wt1 := ainsert st1.workspace_toplevels toplevel.ws_handle
        (aerase ws_toplevels handle)
      ({ st1 with workspace_toplevels := wt1 }, true)
    | none => (st1, false)
  | none => (st, false)

/-- AppData::add_top_level. -/
def addTopLevel (st : AppData) (toplevel : AppToplevel) : AppData :=
  let ws_id := toplevel.ws_handle
  let tl_id := toplevel.handle
  let st1 := (removeToplevel st tl_id).1
  let ws_toplevels := (alookup st1.workspace_toplevels ws_id).getD []
  let ws_toplevels1 := ainsert ws_toplevels tl_id toplevel
  { st1 with
    workspace_toplevels := ainsert st1.workspace_toplevels ws_id ws_toplevels1
    toplevels := ainsert st1.toplevels tl_id toplevel }

/-- The group gate inside WorkspaceHandler::done: a group is processed when
some member output passes is_active_output. -/
def groupIncluded (st : AppData) (group : WorkspaceGroup) : Bool :=
  group.outputs.any (fun output => isActiveOutput st output)

/-- The new_state computation of WorkspaceHandler::done: enumerate groups,
keep the gated ones, resolve each member workspace and insert it keyed by
its handle. -/
def computeNewWorkspaces (env : ProtocolEnv) (st : AppData) :
    List (WsHandle × AppWorkspace) :=
  env.workspaceGroups.foldl
    (fun acc group =>
      if groupIncluded st group then
        group.workspaces.foldl
          (fun acc1 workspace_handle =>
            match getWorkspaceFromHandle env workspace_handle with
            | some ws => ainsert acc1 ws.handle ws
            | none => acc1)
          acc
      else acc)
    []

/-- Lexicographic strict order on character lists by unicode scalar value;
this matches Rust's String ordering (UTF-8 byte order preserves it). -/
def strLt : List Char → List Char → Bool
  | [], [] => false
  | [], _ :: _ => true
  | _ :: _, [] => false
  | a :: as, b :: bs =>
      if a.toNat < b.toNat then true
      else if b.toNat < a.toNat then false
      else strLt as bs

/-- Non-strict string comparison used as the sort key order. -/
def strLe (s1 s2 : String) : Bool := !strLt s2.data s1.data

/-- The name ordering used by done's sort_by_key. -/
def nameLe (a b : AppWorkspace) : Prop := strLe a.name b.name = true

instance : DecidableRel nameLe :=
  fun a b => inferInstanceAs (Decidable (strLe a.name b.name = true))

/-- done's `workspaces_vec.sort_by_key(|ws| ws.name.clone())`: Rust's stable
ascending sort by name, modelled as stable insertion sort. -/
def sortWorkspaces (l : List AppWorkspace) : List AppWorkspace :=
  List.insertionSort nameLe l

/-- WorkspaceHandler::done. -/
def wsDone (env : ProtocolEnv) (st : AppData) : AppData :=
  let new_state := computeNewWorkspaces env st
  if eqm st.workspaces new_state then st
  else
    let removed_keys :=
      (st.workspaces.map Prod.fst).filter (fun k => (alookup new_state k).isNone)
    let st1 := { st with
      workspace_toplevels :=
        removed_keys.foldl (fun wt key => aerase wt key) st.workspace_toplevels }
    let st2 := { st1 with workspaces := new_state }
    let workspaces_vec := sortWorkspaces (st2.workspaces.map Prod.snd)
    sendEvent st2 (WaylandEvent.WorkspacesChanged workspaces_vec)

/-- ToplevelInfoHandler::new_toplevel. -/
def newToplevel (env : ProtocolEnv) (st : AppData) (handle : TlHandle) : AppData :=
  match getToplevelFromHandle env st handle with
  | some tl =>
    let st1 := addTopLevel st tl
    sendEvent st1 (WaylandEvent.ToplevelsUpdated st1.workspace_toplevels)
  | none => st

/-- ToplevelInfoHandler::update_toplevel. -/
def updateToplevel (env : ProtocolEnv) (st : AppData) (handle : TlHandle) : AppData :=
  match getToplevelFromHandle env st handle with
  | some new_app_toplevel =>
    let equals :=
      match getMatchingToplevel st new_app_toplevel with
      | some old_app_toplevel => decide (old_app_toplevel = new_app_toplevel)
      | none => false
    if equals then st
    else
      let st1 := addTopLevel st new_app_toplevel
      sendEvent st1 (WaylandEvent.ToplevelsUpdated st1.workspace_toplevels)
  | none => st

/-- ToplevelInfoHandler::toplevel_closed. -/
def toplevelClosed (env : ProtocolEnv) (st : AppData) (handle : TlHandle) : AppData :=
  match getToplevelFromHandle env st handle with
  | some toplevel =>
    let tl_id := toplevel.handle
    let res := removeToplevel st tl_id
    if res.2 then
      sendEvent res.1 (WaylandEvent.ToplevelsUpdated res.1.workspace_toplevels)
    else res.1
  | none => st

/-- OutputHandler::new_output.  The code unwraps the info lookup; an output
without info would panic, which we leave out of the transition (no state). -/
def newOutput (env : ProtocolEnv) (st : AppData) (output : WlOutputId) : AppData :=
  match alookup env.outputInfos output with
  | some nameOpt =>
      if nameOpt = some st.configured_output then
        { st with expected_output := some output }
      else st
  | none => st

/-- The startup scan over already-advertised outputs in start: take the first
output with info whose name matches, or any output when the configured name
is empty. -/
def initExpectedOutput (configured : String) :
    List (WlOutputId × Option String) → Option WlOutputId
  | [] => none
  | (o, nameOpt) :: rest =>
      if configured = "" ∨ nameOpt = some configured then some o
      else initExpectedOutput configured rest

/-- The AppData value built in start (empty maps, resolved expected output). -/
def initAppData (configured : String)
    (startupOutputs : List (WlOutputId × Option String)) : AppData :=
  { chan := [], sent := [], workspaces := [], toplevels := [],
    workspace_toplevels := [], configured_output := configured,
    expected_output := initExpectedOutput configured startupOutputs }

/-- One incoming protocol notification, dispatched by the event loop. -/
inductive WlMsg where
  | newToplevel (h : TlHandle)
  | updateToplevel (h : TlHandle)
  | toplevelClosed (h : TlHandle)
  | wsDone
  | newOutput (o : WlOutputId)
deriving DecidableEq

/-- Dispatch of one message to its handler, reading the protocol-library
state current at that moment. -/
def stepMsg (st : AppData) (env : ProtocolEnv) (m : WlMsg) : AppData :=
  match m with
  | .newToplevel h => newToplevel env st h
  | .updateToplevel h => updateToplevel env st h
  | .toplevelClosed h => toplevelClosed env st h
  | .wsDone => wsDone env st
  | .newOutput o => newOutput env st o

/-- The dispatch loop over a finite message trace. -/
def runMsgs (st : AppData) : List (ProtocolEnv × WlMsg) → AppData
  | [] => st
  | (env, m) :: rest => runMsgs (stepMsg st env m) rest

/-- Lookup of one toplevel inside one workspace bucket of the index. -/
def bucketGet (st : AppData) (w : WsHandle) (h : TlHandle) : Option AppToplevel :=
  match alookup st.workspace_toplevels w with
  | some b => alookup b h
  | none => none

/-- Value equality of ToplevelsUpdated payloads (HashMap of HashMap). -/
def eqmm (m1 m2 : List (WsHandle × List (TlHandle × AppToplevel))) : Bool :=
  (m1.all fun p =>
    match alookup m2 p.1 with
    | some b => eqm p.2 b
    | none => false) &&
  (m2.all fun p =>
    match alookup m1 p.1 with
    | some b => eqm p.2 b
    | none => false)

/-- Checker for the diff-suppression property of an event trace: every event
must differ, by value, from the immediately preceding event of its kind. -/
def suppressionOKAux : Option (List AppWorkspace) →
    Option (List (WsHandle × List (TlHandle × AppToplevel))) →
    List WaylandEvent → Bool
  | _, _, [] => true
  | lastWs, lastTl, WaylandEvent.WorkspacesChanged v :: rest =>
      (match lastWs with
       | some v1 => decide (v ≠ v1)
       | none => true) && suppressionOKAux (some v) lastTl rest
  | lastWs, lastTl, WaylandEvent.ToplevelsUpdated m :: rest =>
      (match lastTl with
       | some m1 => !eqmm m m1
       | none => true) && suppressionOKAux lastWs (some m) rest

/-- Diff-suppression over a whole trace (no previous emission at the start). -/
def suppressionOK (evs : List WaylandEvent) : Bool :=
  suppressionOKAux none none evs

/-! ### Concrete protocol fixtures used by counterexamples and witnesses -/

/-- Workspace 1, named "a", active, no coordinates. -/
def wsInfo1 : WorkspaceInfo :=
  { handle := 1, name := "a", stateActive := true, coordinates := [] }

/-- Workspace 2, also named "a", inactive. -/
def wsInfo2 : WorkspaceInfo :=
  { handle := 2, name := "a", stateActive := false, coordinates := [1] }

/-- Toplevel 5 living on workspace 1. -/
def tlInfo5 : ToplevelInfo :=
  { foreign_toplevel := 5, app_id := "f", identifier := "t5", geometry := [],
    stateActivated := false, workspace := [1] }

/-- Toplevel 5 reporting zero workspace memberships. -/
def tlInfo5NoWs : ToplevelInfo :=
  { foreign_toplevel := 5, app_id := "f", identifier := "t5", geometry := [],
    stateActivated := false, workspace := [] }

/-- The record the handlers resolve for tlInfo5 with no expected output. -/
def tl5Rec : AppToplevel :=
  { handle := 5, app_id := "f", is_active := false, ws_handle := 1,
    coordinates := (0, 0) }

/-- A stale variant of tl5Rec (different activation flag). -/
def tl5RecOld : AppToplevel :=
  { handle := 5, app_id := "f", is_active := true, ws_handle := 1,
    coordinates := (0, 0) }

/-- Environment with resolvable infos for workspace 1 and toplevel 5 but no
workspace groups. -/
def envNoGroups : ProtocolEnv :=
  { workspaceGroups := [], workspaceInfos := [(1, wsInfo1)],
    toplevelInfos := [(5, tlInfo5)], outputInfos := [] }

/-- Environment whose single group (output 0) contains workspace 1. -/
def envGroup1 : ProtocolEnv :=
  { workspaceGroups := [{ outputs := [0], workspaces := [1] }],
    workspaceInfos := [(1, wsInfo1)], toplevelInfos := [(5, tlInfo5)],
    outputInfos := [] }

/-- Environment with no groups and no resolvable infos at all. -/
def envEmpty : ProtocolEnv :=
  { workspaceGroups := [], workspaceInfos := [], toplevelInfos := [],
    outputInfos := [] }

/-- Environment whose toplevel 5 reports zero workspace memberships. -/
def envNoWsMembership : ProtocolEnv :=
  { workspaceGroups := [], workspaceInfos := [(1, wsInfo1)],
    toplevelInfos := [(5, tlInfo5NoWs)], outputInfos := [] }

/-- Environment advertising output 1 under the name "A". -/
def envOutputA : ProtocolEnv :=
  { workspaceGroups := [], workspaceInfos := [], toplevelInfos := [],
    outputInfos := [(1, some "A")] }

/-- Discovery order workspace 1 then workspace 2 (both named "a"). -/
def envOrder12 : ProtocolEnv :=
  { workspaceGroups := [{ outputs := [0], workspaces := [1, 2] }],
    workspaceInfos := [(1, wsInfo1), (2, wsInfo2)], toplevelInfos := [],
    outputInfos := [] }

/-- Discovery order workspace 2 then workspace 1 (both named "a"). -/
def envOrder21 : ProtocolEnv :=
  { workspaceGroups := [{ outputs := [0], workspaces := [2, 1] }],
    workspaceInfos := [(1, wsInfo1), (2, wsInfo2)], toplevelInfos := [],
    outputInfos := [] }

/-- A state already holding toplevel 5 (stale record) on workspace 1. -/
def stWithTl5Old : AppData :=
  { chan := [], sent := [], workspaces := [],
    toplevels := [(5, tl5RecOld)],
    workspace_toplevels := [(1, [(5, tl5RecOld)])],
    configured_output := "", expected_output := none }

/-- A state configured for output name "A" with output 0 already resolved. -/
def stConfA : AppData :=
  { chan := [], sent := [], workspaces := [], toplevels := [],
    workspace_toplevels := [], configured_output := "A",
    expected_output := some 0 }

/-- Workspace 2 with the distinct name "b". -/
def wsInfoB : WorkspaceInfo :=
  { handle := 2, name := "b", stateActive := false, coordinates := [1] }

/-- Discovery order 1 then 2, names "a" and "b" (pairwise distinct). -/
def envDistinct12 : ProtocolEnv :=
  { workspaceGroups := [{ outputs := [0], workspaces := [1, 2] }],
    workspaceInfos := [(1, wsInfo1), (2, wsInfoB)], toplevelInfos := [],
    outputInfos := [] }

/-- Discovery order 2 then 1, names "a" and "b" (pairwise distinct). -/
def envDistinct21 : ProtocolEnv :=
  { workspaceGroups := [{ outputs := [0], workspaces := [2, 1] }],
    workspaceInfos := [(1, wsInfo1), (2, wsInfoB)], toplevelInfos := [],
    outputInfos := [] }

/-- A state whose channel already holds 16 undelivered events. -/
def stFullChan : AppData :=
  { chan := List.replicate 16 (WaylandEvent.WorkspacesChanged []), sent := [],
    workspaces := [], toplevels := [], workspace_toplevels := [],
    configured_output := "", expected_output := none }

/-- The bidirectional flat-map/index invariant: every index entry stores the
same record as the flat map, under the bucket named by its ws_handle. -/
def IndexInv (st : AppData) : Prop :=
  ∀ w h r, bucketGet st w h = some r →
    alookup st.toplevels h = some r ∧ r.ws_handle = w

/-! ### Association-list lemmas -/

theorem alookup_ainsert_self {α β : Type} [DecidableEq α]
    (l : List (α × β)) (k : α) (v : β) :
    alookup (ainsert l k v) k = some v := by
  induction l with
  | nil => simp [ainsert, alookup]
  | cons p rest ih =>
    obtain ⟨k1, v1⟩ := p
    by_cases h : k = k1
    · simp [ainsert, h, alookup]
    · simp [ainsert, h, alookup, ih]

theorem alookup_ainsert_ne {α β : Type} [DecidableEq α]
    (l : List (α × β)) (k a : α) (v : β) (hne : a ≠ k) :
    alookup (ainsert l k v) a = alookup l a := by
  induction l with
  | nil => simp [ainsert, alookup, hne]
  | cons p rest ih =>
    obtain ⟨k1, v1⟩ := p
    by_cases h : k = k1
    · subst h
      simp [ainsert, alookup, hne]
    · by_cases h2 : a = k1 <;> simp [ainsert, alookup, h, h2, ih]

theorem alookup_aerase_self {α β : Type} [DecidableEq α]
    (l : List (α × β)) (k : α) :
    alookup (aerase l k) k = none := by
  induction l with
  | nil => simp [aerase, alookup]
  | cons p rest ih =>
    obtain ⟨k1, v1⟩ := p
    by_cases h : k1 = k
    · simp [aerase, h, ih]
    · have h2 : k ≠ k1 := fun e => h e.symm
      simp [aerase, h, alookup, h2, ih]

theorem alookup_aerase_ne {α β : Type} [DecidableEq α]
    (l : List (α × β)) (k a : α) (hne : a ≠ k) :
    alookup (aerase l k) a = alookup l a := by
  induction l with
  | nil => simp [aerase]
  | cons p rest ih =>
    obtain ⟨k1, v1⟩ := p
    by_cases h : k1 = k
    · subst h
      have h2 : a ≠ k1 := hne
      simp [aerase, alookup, h2, ih]
    · by_cases h2 : a = k1 <;> simp [aerase, alookup, h, h2, ih]

theorem mem_of_alookup {α β : Type} [DecidableEq α] {l : List (α × β)}
    {k : α} {v : β} (h : alookup l k = some v) : (k, v) ∈ l := by
  induction l with
  | nil => simp [alookup] at h
  | cons p rest ih =>
    obtain ⟨k1, v1⟩ := p
    by_cases hk : k = k1
    · subst hk
      simp [alookup] at h
      simp [h]
    · simp [alookup, hk] at h
      exact List.mem_cons_of_mem _ (ih h)

theorem alookup_eq_none_iff {α β : Type} [DecidableEq α]
    (l : List (α × β)) (k : α) :
    alookup l k = none ↔ k ∉ l.map Prod.fst := by
  induction l with
  | nil => simp [alookup]
  | cons p rest ih =>
    obtain ⟨k1, v1⟩ := p
    by_cases hk : k = k1
    · subst hk
      simp [alookup]
    · simp [alookup, hk, ih]

theorem alookup_isSome_of_mem_keys {α β : Type} [DecidableEq α]
    {l : List (α × β)} {k : α} (h : k ∈ l.map Prod.fst) :
    (alookup l k).isSome := by
  cases hl : alookup l k with
  | none => exact absurd ((alookup_eq_none_iff l k).mp hl) (fun hn => hn h)
  | some v => simp

theorem mem_keys_ainsert {α β : Type} [DecidableEq α]
    (l : List (α × β)) (k a : α) (v : β) :
    a ∈ (ainsert l k v).map Prod.fst ↔ a ∈ l.map Prod.fst ∨ a = k := by
  induction l with
  | nil => simp [ainsert]
  | cons p rest ih =>
    obtain ⟨k1, v1⟩ := p
    by_cases h : k = k1
    · subst h
      constructor
      · intro hm
        rcases (by simpa [ainsert] using hm) with h1 | h1
        · exact Or.inr h1
        · exact Or.inl (by simp [h1])
      · intro hm
        rcases hm with h1 | h1
        · rcases (by simpa using h1) with h2 | h2
          · simp [ainsert, h2]
          · simp [ainsert, h2]
        · simp [ainsert, h1]
    · simp only [ainsert, h, if_false, List.map_cons, List.mem_cons, ih]
      tauto

theorem keysNodup_ainsert {α β : Type} [DecidableEq α]
    {l : List (α × β)} (hn : keysNodup l) (k : α) (v : β) :
    keysNodup (ainsert l k v) := by
  induction l with
  | nil => simp [ainsert, keysNodup]
  | cons p rest ih =>
    obtain ⟨k1, v1⟩ := p
    simp only [keysNodup, List.map_cons, List.nodup_cons] at hn
    by_cases h : k = k1
    · subst h
      simpa [ainsert, keysNodup] using hn
    · have ih2 := ih hn.2
      simp only [ainsert, h, if_false, keysNodup, List.map_cons, List.nodup_cons]
      refine ⟨?_, ih2⟩
      intro hmem
      rcases (mem_keys_ainsert rest k k1 v).mp hmem with h1 | h1
      · exact hn.1 h1
      · exact h h1.symm

theorem keys_aerase_sublist {α β : Type} [DecidableEq α]
    (l : List (α × β)) (k : α) :
    ((aerase l k).map Prod.fst).Sublist (l.map Prod.fst) := by
  induction l with
  | nil => simp [aerase]
  | cons p rest ih =>
    obtain ⟨k1, v1⟩ := p
    by_cases h : k1 = k
    · simp only [aerase, h, if_true, List.map_cons]
      exact ih.trans (List.sublist_cons_self _ _)
    · simpa [aerase, h] using ih.cons₂ k1

theorem keysNodup_aerase {α β : Type} [DecidableEq α]
    {l : List (α × β)} (hn : keysNodup l) (k : α) :
    keysNodup (aerase l k) :=
  List.Nodup.sublist (keys_aerase_sublist l k) hn

theorem aerase_eq_of_not_mem {α β : Type} [DecidableEq α]
    {l : List (α × β)} {k : α} (h : k ∉ l.map Prod.fst) :
    aerase l k = l := by
  induction l with
  | nil => simp [aerase]
  | cons p rest ih =>
    obtain ⟨k1, v1⟩ := p
    simp only [List.map_cons, List.mem_cons] at h
    push_neg at h
    have h1 : k1 ≠ k := fun e => h.1 e.symm
    simp [aerase, h1, ih h.2]

theorem perm_cons_aerase {α β : Type} [DecidableEq α]
    {l : List (α × β)} {k : α} {v : β} (hn : keysNodup l)
    (h : alookup l k = some v) : l.Perm ((k, v) :: aerase l k) := by
  induction l with
  | nil => simp [alookup] at h
  | cons p rest ih =>
    obtain ⟨k1, v1⟩ := p
    simp only [keysNodup, List.map_cons, List.nodup_cons] at hn
    by_cases hk : k = k1
    · subst hk
      simp only [alookup, if_pos rfl] at h
      obtain rfl : v1 = v := by simpa using h
      have hrest : aerase rest k = rest :=
        aerase_eq_of_not_mem hn.1
      simp [aerase, hrest]
    · have hk1 : k1 ≠ k := fun e => hk e.symm
      simp only [alookup, if_neg hk] at h
      have hp := ih hn.2 h
      have step1 : ((k1, v1) :: rest).Perm ((k1, v1) :: (k, v) :: aerase rest k) :=
        hp.cons _
      have step2 : ((k1, v1) :: (k, v) :: aerase rest k).Perm
          ((k, v) :: (k1, v1) :: aerase rest k) := List.Perm.swap _ _ _
      have step3 : (k, v) :: (k1, v1) :: aerase rest k =
          (k, v) :: aerase ((k1, v1) :: rest) k := by simp [aerase, hk1]
      exact step3 ▸ step1.trans step2

theorem eqm_lookup {α β : Type} [DecidableEq α] [DecidableEq β]
    {m1 m2 : List (α × β)} (h : eqm m1 m2 = true) (k : α) :
    alookup m1 k = alookup m2 k := by
  rw [eqm, Bool.and_eq_true, List.all_eq_true, List.all_eq_true] at h
  obtain ⟨h1, h2⟩ := h
  cases hm : alookup m1 k with
  | some v =>
    have h3 := h1 _ (mem_of_alookup hm)
    simp only [decide_eq_true_eq] at h3
    exact h3.symm
  | none =>
    cases hm2 : alookup m2 k with
    | none => rfl
    | some w =>
      have := h2 _ (mem_of_alookup hm2)
      simp only [decide_eq_true_eq] at this
      rw [hm] at this
      exact this

theorem perm_of_lookup_eq {α β : Type} [DecidableEq α]
    {m1 m2 : List (α × β)} (hn1 : keysNodup m1) (hn2 : keysNodup m2)
    (h : ∀ k, alookup m1 k = alookup m2 k) : m1.Perm m2 := by
  induction m1 generalizing m2 with
  | nil =>
    cases m2 with
    | nil => exact List.Perm.refl _
    | cons p rest =>
      obtain ⟨k1, v1⟩ := p
      have := h k1
      simp [alookup] at this
  | cons p rest ih =>
    obtain ⟨k1, v1⟩ := p
    simp only [keysNodup, List.map_cons, List.nodup_cons] at hn1
    have hm2 : alookup m2 k1 = some v1 := by
      have := h k1
      simpa [alookup] using this.symm
    have hperm2 : m2.Perm ((k1, v1) :: aerase m2 k1) :=
      perm_cons_aerase hn2 hm2
    have hrest : rest.Perm (aerase m2 k1) := by
      apply ih hn1.2 (keysNodup_aerase hn2 k1)
      intro k
      by_cases hk : k = k1
      · subst hk
        rw [alookup_aerase_self]
        exact (alookup_eq_none_iff rest k).mpr hn1.1
      · rw [alookup_aerase_ne _ _ _ hk, ← h k]
        simp [alookup, hk]
    exact (hrest.cons (k1, v1)).trans hperm2.symm

theorem alookup_foldl_aerase_none {α β : Type} [DecidableEq α]
    (ks : List α) (l : List (α × β)) (k : α)
    (h : alookup l k = none) :
    alookup (ks.foldl (fun acc key => aerase acc key) l) k = none := by
  induction ks generalizing l with
  | nil => simpa using h
  | cons a rest ih =>
    simp only [List.foldl_cons]
    apply ih
    by_cases ha : k = a
    · subst ha
      exact alookup_aerase_self _ _
    · rw [alookup_aerase_ne _ _ _ ha]
      exact h

theorem alookup_foldl_aerase_of_mem {α β : Type} [DecidableEq α]
    {ks : List α} {k : α} (h : k ∈ ks) :
    ∀ l : List (α × β), alookup (ks.foldl (fun acc key => aerase acc key) l) k = none := by
  induction h with
  | head rest =>
    intro l
    simp only [List.foldl_cons]
    exact alookup_foldl_aerase_none rest _ k (alookup_aerase_self _ _)
  | tail b hmem ih =>
    intro l
    simp only [List.foldl_cons]
    exact ih _

theorem alookup_foldl_aerase_some {α β : Type} [DecidableEq α]
    (ks : List α) (l : List (α × β)) (k : α) {v : β}
    (h : alookup (ks.foldl (fun acc key => aerase acc key) l) k = some v) :
    alookup l k = some v := by
  induction ks generalizing l with
  | nil => simpa using h
  | cons a rest ih =>
    simp only [List.foldl_cons] at h
    have := ih _ h
    by_cases ha : k = a
    · subst ha
      rw [alookup_aerase_self] at this
      exact absurd this (by simp)
    · rwa [alookup_aerase_ne _ _ _ ha] at this

/-! ### String-order lemmas for the name sort -/

theorem char_toNat_inj {a b : Char} (h : a.toNat = b.toNat) : a = b := by
  apply Char.eq_of_val_eq
  exact UInt32.toNat.inj h

theorem string_data_inj {s1 s2 : String} (h : s1.data = s2.data) : s1 = s2 := by
  cases s1
  cases s2
  exact congrArg String.mk h

theorem strLt_asymm (l1 l2 : List Char) (h1 : strLt l1 l2 = true)
    (h2 : strLt l2 l1 = true) : False := by
  induction l1 generalizing l2 with
  | nil => cases l2 <;> simp [strLt] at h1 h2
  | cons a as ih =>
    cases l2 with
    | nil => simp [strLt] at h1
    | cons b bs =>
      by_cases hab : a.toNat < b.toNat
      · have hba : ¬ b.toNat < a.toNat := by omega
        simp [strLt, hab, hba] at h2
      · by_cases hba : b.toNat < a.toNat
        · simp [strLt, hab, hba] at h1
        · simp [strLt, hab, hba] at h1 h2
          exact ih bs h1 h2

theorem strLt_trans (l1 l2 l3 : List Char) (h1 : strLt l1 l2 = true)
    (h2 : strLt l2 l3 = true) : strLt l1 l3 = true := by
  induction l1 generalizing l2 l3 with
  | nil =>
    cases l3 with
    | nil => cases l2 <;> simp [strLt] at h2
    | cons c cs => simp [strLt]
  | cons a as ih =>
    cases l2 with
    | nil => simp [strLt] at h1
    | cons b bs =>
      cases l3 with
      | nil => simp [strLt] at h2
      | cons c cs =>
        by_cases hab : a.toNat < b.toNat
        · by_cases hbc : b.toNat < c.toNat
          · have hac : a.toNat < c.toNat := by omega
            simp [strLt, hac]
          · by_cases hcb : c.toNat < b.toNat
            · simp [strLt, hbc, hcb] at h2
            · have hac : a.toNat < c.toNat := by omega
              simp [strLt, hac]
        · by_cases hba : b.toNat < a.toNat
          · simp [strLt, hab, hba] at h1
          · simp [strLt, hab, hba] at h1
            by_cases hbc : b.toNat < c.toNat
            · have hac : a.toNat < c.toNat := by omega
              simp [strLt, hac]
            · by_cases hcb : c.toNat < b.toNat
              · simp [strLt, hbc, hcb] at h2
              · simp [strLt, hbc, hcb] at h2
                have hac : ¬ a.toNat < c.toNat := by omega
                have hca : ¬ c.toNat < a.toNat := by omega
                simp only [strLt, if_neg hac, if_neg hca]
                exact ih bs cs h1 h2

theorem strLt_connex (l1 l2 : List Char) (h1 : strLt l1 l2 = false)
    (h2 : strLt l2 l1 = false) : l1 = l2 := by
  induction l1 generalizing l2 with
  | nil =>
    cases l2 with
    | nil => rfl
    | cons b bs => simp [strLt] at h1
  | cons a as ih =>
    cases l2 with
    | nil => simp [strLt] at h2
    | cons b bs =>
      by_cases hab : a.toNat < b.toNat
      · simp [strLt, hab] at h1
      · by_cases hba : b.toNat < a.toNat
        · simp [strLt, hab, hba] at h2
        · simp [strLt, hab, hba] at h1 h2
          have hchar : a = b := char_toNat_inj (by omega)
          rw [hchar, ih bs h1 h2]

/-- The non-strict name order as a relation on strings. -/
def strLeProp (s1 s2 : String) : Prop := strLe s1 s2 = true

instance : DecidableRel strLeProp :=
  fun a b => inferInstanceAs (Decidable (strLe a b = true))

instance : IsTotal String strLeProp := by
  constructor
  intro a b
  unfold strLeProp strLe
  by_cases h : strLt b.data a.data = true
  · right
    by_cases h2 : strLt a.data b.data = true
    · exact absurd (strLt_asymm _ _ h h2) (fun f => f)
    · simp [Bool.eq_false_iff.mpr h2]
  · left
    simp [Bool.eq_false_iff.mpr h]

instance : IsTrans String strLeProp := by
  constructor
  intro a b c hab hbc
  unfold strLeProp strLe at hab hbc ⊢
  simp only [Bool.not_eq_true'] at hab hbc ⊢
  by_cases hca : strLt c.data a.data = true
  · by_cases hbc2 : strLt b.data c.data = true
    · exact absurd (strLt_trans _ _ _ hbc2 hca) (by simp [hab])
    · have heq : b.data = c.data :=
        strLt_connex _ _ (Bool.eq_false_iff.mpr hbc2) hbc
      rw [← heq] at hca
      simp [hca] at hab
  · exact Bool.eq_false_iff.mpr hca

instance : IsAntisymm String strLeProp := by
  constructor
  intro a b hab hba
  unfold strLeProp strLe at hab hba
  simp only [Bool.not_eq_true'] at hab hba
  exact string_data_inj (strLt_connex _ _ hba hab)

instance : IsTotal AppWorkspace nameLe := by
  constructor
  intro a b
  exact (inferInstanceAs (IsTotal String strLeProp)).total a.name b.name

instance : IsTrans AppWorkspace nameLe := by
  constructor
  intro a b c h1 h2
  exact (inferInstanceAs (IsTrans String strLeProp)).trans a.name b.name c.name h1 h2

/-! ### Sort determinism lemmas -/

theorem sorted_sortWorkspaces (l : List AppWorkspace) :
    List.Sorted nameLe (sortWorkspaces l) :=
  List.sorted_insertionSort nameLe l

theorem perm_sortWorkspaces (l : List AppWorkspace) :
    (sortWorkspaces l).Perm l :=
  List.perm_insertionSort nameLe l

theorem eq_of_perm_of_map_name_eq : ∀ {l1 l2 : List AppWorkspace},
    l1.Perm l2 → l1.map AppWorkspace.name = l2.map AppWorkspace.name →
    (l1.map AppWorkspace.name).Nodup → l1 = l2 := by
  intro l1
  induction l1 with
  | nil =>
    intro l2 hp _ _
    exact (hp.symm.eq_nil).symm
  | cons a t1 ih =>
    intro l2 hp hm hn
    cases l2 with
    | nil =>
      exact absurd hp.eq_nil (by simp)
    | cons b t2 =>
      simp only [List.map_cons, List.cons.injEq] at hm
      simp only [List.map_cons, List.nodup_cons] at hn
      by_cases hab : a = b
      · subst hab
        have ht : t1.Perm t2 := hp.cons_inv
        rw [ih ht hm.2 hn.2]
      · exfalso
        have hmem : a ∈ b :: t2 := hp.subset (List.mem_cons_self a t1)
        have hmem2 : a ∈ t2 := by
          rcases List.mem_cons.mp hmem with h | h
          · exact absurd h hab
          · exact h
        have hnm : AppWorkspace.name a ∈ t2.map AppWorkspace.name :=
          List.mem_map_of_mem _ hmem2
        rw [← hm.2] at hnm
        exact hn.1 hnm

theorem sortWorkspaces_eq_of_perm {l1 l2 : List AppWorkspace}
    (hp : l1.Perm l2) (hn : (l1.map AppWorkspace.name).Nodup) :
    sortWorkspaces l1 = sortWorkspaces l2 := by
  have hs1 := sorted_sortWorkspaces l1
  have hs2 := sorted_sortWorkspaces l2
  have hperm : (sortWorkspaces l1).Perm (sortWorkspaces l2) :=
    (perm_sortWorkspaces l1).trans (hp.trans (perm_sortWorkspaces l2).symm)
  have hm1 : List.Sorted strLeProp ((sortWorkspaces l1).map AppWorkspace.name) :=
    List.Pairwise.map AppWorkspace.name (fun _ _ h => h) hs1
  have hm2 : List.Sorted strLeProp ((sortWorkspaces l2).map AppWorkspace.name) :=
    List.Pairwise.map AppWorkspace.name (fun _ _ h => h) hs2
  have hmapeq : (sortWorkspaces l1).map AppWorkspace.name =
      (sortWorkspaces l2).map AppWorkspace.name :=
    List.eq_of_perm_of_sorted (hperm.map AppWorkspace.name) hm1 hm2
  have hnodup : ((sortWorkspaces l1).map AppWorkspace.name).Nodup :=
    (((perm_sortWorkspaces l1).map AppWorkspace.name).nodup_iff).mpr hn
  exact eq_of_perm_of_map_name_eq hperm hmapeq hnodup

/-! ### computeNewWorkspaces fold lemmas -/

theorem keysNodup_wsfold (env : ProtocolEnv) (hs : List WsHandle) :
    ∀ acc : List (WsHandle × AppWorkspace), keysNodup acc →
      keysNodup (hs.foldl (fun acc1 workspace_handle =>
        match getWorkspaceFromHandle env workspace_handle with
        | some ws => ainsert acc1 ws.handle ws
        | none => acc1) acc) := by
  induction hs with
  | nil =>
    intro acc h
    simpa using h
  | cons wh rest ih =>
    intro acc h
    simp only [List.foldl_cons]
    apply ih
    cases hg : getWorkspaceFromHandle env wh with
    | none => simpa [hg] using h
    | some ws =>
      simp only [hg]
      exact keysNodup_ainsert h _ _

theorem keysNodup_groupfold (env : ProtocolEnv) (st : AppData)
    (gs : List WorkspaceGroup) :
    ∀ acc : List (WsHandle × AppWorkspace), keysNodup acc →
      keysNodup (gs.foldl (fun acc group =>
        if groupIncluded st group then
          group.workspaces.foldl (fun acc1 workspace_handle =>
            match getWorkspaceFromHandle env workspace_handle with
            | some ws => ainsert acc1 ws.handle ws
            | none => acc1) acc
        else acc) acc) := by
  induction gs with
  | nil =>
    intro acc h
    simpa using h
  | cons g rest ih =>
    intro acc h
    simp only [List.foldl_cons]
    apply ih
    by_cases hg : groupIncluded st g = true
    · simp only [if_pos hg]
      exact keysNodup_wsfold env g.workspaces acc h
    · simp only [Bool.eq_false_iff.mpr hg, if_false]
      exact h

theorem keysNodup_computeNewWorkspaces (env : ProtocolEnv) (st : AppData) :
    keysNodup (computeNewWorkspaces env st) := by
  unfold computeNewWorkspaces
  exact keysNodup_groupfold env st env.workspaceGroups [] (by simp [keysNodup])

theorem groupfold_key_origin (env : ProtocolEnv) (st : AppData)
    (gs : List WorkspaceGroup) (k : WsHandle) :
    ∀ acc : List (WsHandle × AppWorkspace),
      (alookup (gs.foldl (fun acc group =>
        if groupIncluded st group then
          group.workspaces.foldl (fun acc1 workspace_handle =>
            match getWorkspaceFromHandle env workspace_handle with
            | some ws => ainsert acc1 ws.handle ws
            | none => acc1) acc
        else acc) acc) k).isSome = true →
      (alookup acc k).isSome = true ∨ ∃ g ∈ gs, groupIncluded st g = true := by
  induction gs with
  | nil =>
    intro acc h
    exact Or.inl (by simpa using h)
  | cons g rest ih =>
    intro acc h
    simp only [List.foldl_cons] at h
    by_cases hg : groupIncluded st g = true
    · exact Or.inr ⟨g, List.mem_cons_self _ _, hg⟩
    · rw [if_neg (by simp [Bool.eq_false_iff.mpr hg])] at h
      rcases ih _ h with h1 | ⟨g2, hg2, hg3⟩
      · exact Or.inl h1
      · exact Or.inr ⟨g2, List.mem_cons_of_mem _ hg2, hg3⟩

theorem computeNewWorkspaces_key_origin (env : ProtocolEnv) (st : AppData)
    (k : WsHandle) (h : (alookup (computeNewWorkspaces env st) k).isSome = true) :
    ∃ g ∈ env.workspaceGroups, groupIncluded st g = true := by
  unfold computeNewWorkspaces at h
  rcases groupfold_key_origin env st env.workspaceGroups k [] h with h1 | h1
  · simp [alookup] at h1
  · exact h1

/-- Appending one event always changes the ghost sent list. -/
theorem append_singleton_ne (l : List WaylandEvent) (e : WaylandEvent) :
    l ++ [e] ≠ l := by
  intro h
  have h2 := congrArg List.length h
  simp at h2

/-! ### Handler characterization lemmas -/

theorem bucketGet_some_elim {st : AppData} {w : WsHandle} {h : TlHandle}
    {r : AppToplevel} (hb : bucketGet st w h = some r) :
    ∃ b, alookup st.workspace_toplevels w = some b ∧ alookup b h = some r := by
  unfold bucketGet at hb
  cases hwl : alookup st.workspace_toplevels w with
  | none =>
    rw [hwl] at hb
    simp at hb
  | some b =>
    rw [hwl] at hb
    exact ⟨b, rfl, hb⟩

theorem bucketGet_intro {st : AppData} {w : WsHandle} {b : List (TlHandle × AppToplevel)}
    (hwl : alookup st.workspace_toplevels w = some b) (h : TlHandle) :
    bucketGet st w h = alookup b h := by
  unfold bucketGet
  rw [hwl]

theorem removeToplevel_eq_notfound (st : AppData) (h : TlHandle)
    (htl : alookup st.toplevels h = none) :
    removeToplevel st h = (st, false) := by
  simp [removeToplevel, htl]

theorem removeToplevel_eq_nobucket (st : AppData) (h : TlHandle) (tl : AppToplevel)
    (htl : alookup st.toplevels h = some tl)
    (hwt : alookup st.workspace_toplevels tl.ws_handle = none) :
    removeToplevel st h = ({ st with toplevels := aerase st.toplevels h }, false) := by
  simp [removeToplevel, htl, hwt]

theorem removeToplevel_eq_found (st : AppData) (h : TlHandle) (tl : AppToplevel)
    (b : List (TlHandle × AppToplevel))
    (htl : alookup st.toplevels h = some tl)
    (hwt : alookup st.workspace_toplevels tl.ws_handle = some b) :
    removeToplevel st h = ({ st with toplevels := aerase st.toplevels h, workspace_toplevels := ainsert st.workspace_toplevels tl.ws_handle (aerase b h) }, true) := by
  simp [removeToplevel, htl, hwt]

theorem newToplevel_eq_none (env : ProtocolEnv) (st : AppData) (h : TlHandle)
    (hg : getToplevelFromHandle env st h = none) : newToplevel env st h = st := by
  simp [newToplevel, hg]

theorem newToplevel_eq_some (env : ProtocolEnv) (st : AppData) (h : TlHandle)
    (tl : AppToplevel) (hg : getToplevelFromHandle env st h = some tl) :
    newToplevel env st h =
      sendEvent (addTopLevel st tl)
        (WaylandEvent.ToplevelsUpdated (addTopLevel st tl).workspace_toplevels) := by
  simp [newToplevel, hg]

theorem updateToplevel_eq_none (env : ProtocolEnv) (st : AppData) (h : TlHandle)
    (hg : getToplevelFromHandle env st h = none) : updateToplevel env st h = st := by
  simp [updateToplevel, hg]

theorem updateToplevel_eq_same (env : ProtocolEnv) (st : AppData) (h : TlHandle)
    (tl : AppToplevel) (hg : getToplevelFromHandle env st h = some tl)
    (hm : getMatchingToplevel st tl = some tl) : updateToplevel env st h = st := by
  simp [updateToplevel, hg, hm]

theorem updateToplevel_eq_changed (env : ProtocolEnv) (st : AppData) (h : TlHandle)
    (tl : AppToplevel) (hg : getToplevelFromHandle env st h = some tl)
    (hm : getMatchingToplevel st tl ≠ some tl) :
    updateToplevel env st h =
      sendEvent (addTopLevel st tl)
        (WaylandEvent.ToplevelsUpdated (addTopLevel st tl).workspace_toplevels) := by
  cases hmm : getMatchingToplevel st tl with
  | none => simp [updateToplevel, hg, hmm]
  | some old =>
    have hne : ¬ old = tl := fun e => hm (by rw [hmm, e])
    simp [updateToplevel, hg, hmm, hne]

theorem toplevelClosed_eq_none (env : ProtocolEnv) (st : AppData) (h : TlHandle)
    (hg : getToplevelFromHandle env st h = none) : toplevelClosed env st h = st := by
  simp [toplevelClosed, hg]

theorem toplevelClosed_eq_found (env : ProtocolEnv) (st : AppData) (h : TlHandle)
    (tl : AppToplevel) (hg : getToplevelFromHandle env st h = some tl)
    (hr : (removeToplevel st tl.handle).2 = true) :
    toplevelClosed env st h =
      sendEvent (removeToplevel st tl.handle).1
        (WaylandEvent.ToplevelsUpdated
          (removeToplevel st tl.handle).1.workspace_toplevels) := by
  simp [toplevelClosed, hg, hr]

theorem toplevelClosed_eq_notfound (env : ProtocolEnv) (st : AppData) (h : TlHandle)
    (tl : AppToplevel) (hg : getToplevelFromHandle env st h = some tl)
    (hr : (removeToplevel st tl.handle).2 = false) :
    toplevelClosed env st h = (removeToplevel st tl.handle).1 := by
  simp [toplevelClosed, hg, hr]

theorem newOutput_eq_noinfo (env : ProtocolEnv) (st : AppData) (o : WlOutputId)
    (ho : alookup env.outputInfos o = none) : newOutput env st o = st := by
  simp [newOutput, ho]

theorem newOutput_eq_match (env : ProtocolEnv) (st : AppData) (o : WlOutputId)
    (nm : Option String) (ho : alookup env.outputInfos o = some nm)
    (hm : nm = some st.configured_output) :
    newOutput env st o = { st with expected_output := some o } := by
  simp [newOutput, ho, hm]

theorem newOutput_eq_nomatch (env : ProtocolEnv) (st : AppData) (o : WlOutputId)
    (nm : Option String) (ho : alookup env.outputInfos o = some nm)
    (hm : nm ≠ some st.configured_output) :
    newOutput env st o = st := by
  simp [newOutput, ho, hm]

theorem wsDone_eq_of_eqm (env : ProtocolEnv) (st : AppData)
    (he : eqm st.workspaces (computeNewWorkspaces env st) = true) :
    wsDone env st = st := by
  simp [wsDone, he]

theorem wsDone_fields (env : ProtocolEnv) (st : AppData)
    (he : eqm st.workspaces (computeNewWorkspaces env st) = false) :
    (wsDone env st).toplevels = st.toplevels ∧
    (wsDone env st).workspaces = computeNewWorkspaces env st ∧
    (wsDone env st).workspace_toplevels =
      ((st.workspaces.map Prod.fst).filter
        (fun k => (alookup (computeNewWorkspaces env st) k).isNone)).foldl
        (fun wt key => aerase wt key) st.workspace_toplevels ∧
    (wsDone env st).sent = st.sent ++ [WaylandEvent.WorkspacesChanged
      (sortWorkspaces ((computeNewWorkspaces env st).map Prod.snd))] := by
  refine ⟨?_, ?_, ?_, ?_⟩ <;> simp [wsDone, he, sendEvent]

/-! ### Preservation of the flat-map/index invariant -/

theorem IndexInv_not_in_bucket (st : AppData) (hI : IndexInv st) (h : TlHandle)
    (hnone : alookup st.toplevels h = none) (w : WsHandle) :
    bucketGet st w h = none := by
  cases hb : bucketGet st w h with
  | none => rfl
  | some r =>
    have hflat := (hI w h r hb).1
    rw [hnone] at hflat
    exact absurd hflat (by simp)

theorem removeToplevel_toplevels_none (st : AppData) (h : TlHandle) :
    alookup (removeToplevel st h).1.toplevels h = none := by
  cases htl : alookup st.toplevels h with
  | none =>
    rw [removeToplevel_eq_notfound st h htl]
    exact htl
  | some tl =>
    cases hwt : alookup st.workspace_toplevels tl.ws_handle with
    | none =>
      rw [removeToplevel_eq_nobucket st h tl htl hwt]
      exact alookup_aerase_self _ _
    | some b =>
      rw [removeToplevel_eq_found st h tl b htl hwt]
      exact alookup_aerase_self _ _

theorem removeToplevel_toplevels_frame (st : AppData) (h h2 : TlHandle)
    (hne : h2 ≠ h) :
    alookup (removeToplevel st h).1.toplevels h2 = alookup st.toplevels h2 := by
  cases htl : alookup st.toplevels h with
  | none => rw [removeToplevel_eq_notfound st h htl]
  | some tl =>
    cases hwt : alookup st.workspace_toplevels tl.ws_handle with
    | none =>
      rw [removeToplevel_eq_nobucket st h tl htl hwt]
      exact alookup_aerase_ne _ _ _ hne
    | some b =>
      rw [removeToplevel_eq_found st h tl b htl hwt]
      exact alookup_aerase_ne _ _ _ hne

theorem removeToplevel_bucket_frame (st : AppData) (h h2 : TlHandle) (w : WsHandle)
    (hne : h2 ≠ h) :
    bucketGet (removeToplevel st h).1 w h2 = bucketGet st w h2 := by
  cases htl : alookup st.toplevels h with
  | none => rw [removeToplevel_eq_notfound st h htl]
  | some tl =>
    cases hwt : alookup st.workspace_toplevels tl.ws_handle with
    | none =>
      rw [removeToplevel_eq_nobucket st h tl htl hwt]
      rfl
    | some b =>
      rw [removeToplevel_eq_found st h tl b htl hwt]
      by_cases hw : w = tl.ws_handle
      · subst hw
        unfold bucketGet
        simp only [alookup_ainsert_self, hwt]
        exact alookup_aerase_ne _ _ _ hne
      · unfold bucketGet
        simp only [alookup_ainsert_ne _ _ _ _ hw]

theorem removeToplevel_bucket_none (st : AppData) (hI : IndexInv st) (h : TlHandle)
    (w : WsHandle) : bucketGet (removeToplevel st h).1 w h = none := by
  cases htl : alookup st.toplevels h with
  | none =>
    rw [removeToplevel_eq_notfound st h htl]
    exact IndexInv_not_in_bucket st hI h htl w
  | some tl =>
    cases hwt : alookup st.workspace_toplevels tl.ws_handle with
    | none =>
      rw [removeToplevel_eq_nobucket st h tl htl hwt]
      cases hb : bucketGet st w h with
      | none => exact hb
      | some r =>
        obtain ⟨hflat, hws⟩ := hI w h r hb
        rw [htl] at hflat
        obtain rfl : tl = r := by simpa using hflat
        rw [hws] at hwt
        obtain ⟨b2, hwl, hbh⟩ := bucketGet_some_elim hb
        rw [hwl] at hwt
        simp at hwt
    | some b =>
      rw [removeToplevel_eq_found st h tl b htl hwt]
      by_cases hw : w = tl.ws_handle
      · subst hw
        unfold bucketGet
        simp only [alookup_ainsert_self]
        exact alookup_aerase_self _ _
      · unfold bucketGet
        simp only [alookup_ainsert_ne _ _ _ _ hw]
        cases hb : bucketGet st w h with
        | none =>
          have h3 := hb
          unfold bucketGet at h3
          exact h3
        | some r =>
          obtain ⟨hflat, hws⟩ := hI w h r hb
          rw [htl] at hflat
          obtain rfl : tl = r := by simpa using hflat
          exact absurd hws.symm hw

theorem IndexInv_removeToplevel (st : AppData) (hI : IndexInv st) (h : TlHandle) :
    IndexInv (removeToplevel st h).1 := by
  intro w h2 r hb
  by_cases hne : h2 = h
  · subst hne
    rw [removeToplevel_bucket_none st hI h2 w] at hb
    exact absurd hb (by simp)
  · rw [removeToplevel_bucket_frame st h h2 w hne] at hb
    obtain ⟨hflat, hws⟩ := hI w h2 r hb
    refine ⟨?_, hws⟩
    rw [removeToplevel_toplevels_frame st h h2 hne]
    exact hflat

theorem addTopLevel_bucket_self (st : AppData) (tl : AppToplevel) :
    bucketGet (addTopLevel st tl) tl.ws_handle tl.handle = some tl := by
  unfold addTopLevel bucketGet
  simp only [alookup_ainsert_self]

theorem addTopLevel_toplevels_self (st : AppData) (tl : AppToplevel) :
    alookup (addTopLevel st tl).toplevels tl.handle = some tl := by
  unfold addTopLevel
  simp only [alookup_ainsert_self]

theorem addTopLevel_toplevels_frame (st : AppData) (tl : AppToplevel) (h2 : TlHandle)
    (hne : h2 ≠ tl.handle) :
    alookup (addTopLevel st tl).toplevels h2 =
    alookup (removeToplevel st tl.handle).1.toplevels h2 := by
  unfold addTopLevel
  simp only [alookup_ainsert_ne _ _ _ _ hne]

theorem addTopLevel_bucket_other (st : AppData) (tl : AppToplevel) (w : WsHandle)
    (h2 : TlHandle) (hw : w ≠ tl.ws_handle) :
    bucketGet (addTopLevel st tl) w h2 =
    bucketGet (removeToplevel st tl.handle).1 w h2 := by
  unfold addTopLevel bucketGet
  simp only [alookup_ainsert_ne _ _ _ _ hw]

theorem IndexInv_addTopLevel (st : AppData) (hI : IndexInv st) (tl : AppToplevel) :
    IndexInv (addTopLevel st tl) := by
  have hI1 : IndexInv (removeToplevel st tl.handle).1 :=
    IndexInv_removeToplevel st hI tl.handle
  intro w h2 r hb
  by_cases hh : h2 = tl.handle
  · subst hh
    by_cases hw : w = tl.ws_handle
    · subst hw
      rw [addTopLevel_bucket_self] at hb
      obtain rfl : tl = r := by simpa using hb
      exact ⟨addTopLevel_toplevels_self st tl, rfl⟩
    · exfalso
      rw [addTopLevel_bucket_other st tl w tl.handle hw,
        removeToplevel_bucket_none st hI tl.handle w] at hb
      simp at hb
  · by_cases hw : w = tl.ws_handle
    · subst hw
      have hb2 : bucketGet (removeToplevel st tl.handle).1 tl.ws_handle h2 = some r := by
        cases hb0 : alookup (removeToplevel st tl.handle).1.workspace_toplevels
            tl.ws_handle with
        | none =>
          exfalso
          have hnone : bucketGet (addTopLevel st tl) tl.ws_handle h2 = none := by
            unfold addTopLevel bucketGet
            simp only [hb0, Option.getD_none, alookup_ainsert_self,
              alookup_ainsert_ne _ _ _ _ hh]
            rfl
          rw [hnone] at hb
          simp at hb
        | some b0 =>
          have hval : bucketGet (addTopLevel st tl) tl.ws_handle h2 = alookup b0 h2 := by
            unfold addTopLevel bucketGet
            simp only [hb0, Option.getD_some, alookup_ainsert_self,
              alookup_ainsert_ne _ _ _ _ hh]
          rw [hval] at hb
          rw [bucketGet_intro hb0]
          exact hb
      obtain ⟨hflat, hws⟩ := hI1 _ _ _ hb2
      refine ⟨?_, hws⟩
      rw [addTopLevel_toplevels_frame st tl h2 hh]
      exact hflat
    · rw [addTopLevel_bucket_other st tl w h2 hw] at hb
      obtain ⟨hflat, hws⟩ := hI1 _ _ _ hb
      refine ⟨?_, hws⟩
      rw [addTopLevel_toplevels_frame st tl h2 hh]
      exact hflat

theorem IndexInv_sendEvent (st : AppData) (ev : WaylandEvent)
    (hI : IndexInv st) : IndexInv (sendEvent st ev) :=
  fun w h r hb => hI w h r hb

theorem IndexInv_wsDone (env : ProtocolEnv) (st : AppData) (hI : IndexInv st) :
    IndexInv (wsDone env st) := by
  by_cases he : eqm st.workspaces (computeNewWorkspaces env st) = true
  · rw [wsDone_eq_of_eqm env st he]
    exact hI
  · have hf := wsDone_fields env st (Bool.eq_false_iff.mpr he)
    intro w h r hb
    obtain ⟨b, hwl, hbh⟩ := bucketGet_some_elim hb
    rw [hf.2.2.1] at hwl
    have hwl2 := alookup_foldl_aerase_some _ _ _ hwl
    have hb2 : bucketGet st w h = some r := by
      rw [bucketGet_intro hwl2]
      exact hbh
    obtain ⟨hflat, hws⟩ := hI w h r hb2
    refine ⟨?_, hws⟩
    rw [hf.1]
    exact hflat

theorem IndexInv_newToplevel (env : ProtocolEnv) (st : AppData) (h : TlHandle)
    (hI : IndexInv st) : IndexInv (newToplevel env st h) := by
  cases hg : getToplevelFromHandle env st h with
  | none =>
    rw [newToplevel_eq_none env st h hg]
    exact hI
  | some tl =>
    rw [newToplevel_eq_some env st h tl hg]
    exact IndexInv_sendEvent _ _ (IndexInv_addTopLevel st hI tl)

theorem IndexInv_updateToplevel (env : ProtocolEnv) (st : AppData) (h : TlHandle)
    (hI : IndexInv st) : IndexInv (updateToplevel env st h) := by
  cases hg : getToplevelFromHandle env st h with
  | none =>
    rw [updateToplevel_eq_none env st h hg]
    exact hI
  | some tl =>
    by_cases hm : getMatchingToplevel st tl = some tl
    · rw [updateToplevel_eq_same env st h tl hg hm]
      exact hI
    · rw [updateToplevel_eq_changed env st h tl hg hm]
      exact IndexInv_sendEvent _ _ (IndexInv_addTopLevel st hI tl)

theorem IndexInv_toplevelClosed (env : ProtocolEnv) (st : AppData) (h : TlHandle)
    (hI : IndexInv st) : IndexInv (toplevelClosed env st h) := by
  cases hg : getToplevelFromHandle env st h with
  | none =>
    rw [toplevelClosed_eq_none env st h hg]
    exact hI
  | some tl =>
    by_cases hr : (removeToplevel st tl.handle).2 = true
    · rw [toplevelClosed_eq_found env st h tl hg hr]
      exact IndexInv_sendEvent _ _ (IndexInv_removeToplevel st hI tl.handle)
    · rw [toplevelClosed_eq_notfound env st h tl hg (Bool.eq_false_iff.mpr hr)]
      exact IndexInv_removeToplevel st hI tl.handle

theorem IndexInv_newOutput (env : ProtocolEnv) (st : AppData) (o : WlOutputId)
    (hI : IndexInv st) : IndexInv (newOutput env st o) := by
  cases ho : alookup env.outputInfos o with
  | none =>
    rw [newOutput_eq_noinfo env st o ho]
    exact hI
  | some nm =>
    by_cases hm : nm = some st.configured_output
    · rw [newOutput_eq_match env st o nm ho hm]
      intro w h r hb
      exact hI w h r hb
    · rw [newOutput_eq_nomatch env st o nm ho hm]
      exact hI

theorem IndexInv_stepMsg (st : AppData) (env : ProtocolEnv) (m : WlMsg)
    (hI : IndexInv st) : IndexInv (stepMsg st env m) := by
  cases m with
  | newToplevel h => exact IndexInv_newToplevel env st h hI
  | updateToplevel h => exact IndexInv_updateToplevel env st h hI
  | toplevelClosed h => exact IndexInv_toplevelClosed env st h hI
  | wsDone => exact IndexInv_wsDone env st hI
  | newOutput o => exact IndexInv_newOutput env st o hI

theorem IndexInv_runMsgs (tr : List (ProtocolEnv × WlMsg)) :
    ∀ st : AppData, IndexInv st → IndexInv (runMsgs st tr) := by
  induction tr with
  | nil =>
    intro st h
    simpa [runMsgs] using h
  | cons p rest ih =>
    intro st h
    obtain ⟨env, m⟩ := p
    simp only [runMsgs]
    exact ih _ (IndexInv_stepMsg st env m h)

theorem IndexInv_init (cfg : String) (souts : List (WlOutputId × Option String)) :
    IndexInv (initAppData cfg souts) := by
  intro w h r hb
  simp [initAppData, bucketGet, alookup] at hb

theorem IndexInv_reachable (cfg : String) (souts : List (WlOutputId × Option String))
    (tr : List (ProtocolEnv × WlMsg)) :
    IndexInv (runMsgs (initAppData cfg souts) tr) :=
  IndexInv_runMsgs tr _ (IndexInv_init cfg souts)

/-! ### Frame lemmas on the ghost sent list -/

theorem removeToplevel_sent (st : AppData) (h : TlHandle) :
    (removeToplevel st h).1.sent = st.sent := by
  cases htl : alookup st.toplevels h with
  | none => rw [removeToplevel_eq_notfound st h htl]
  | some tl =>
    cases hwt : alookup st.workspace_toplevels tl.ws_handle with
    | none => rw [removeToplevel_eq_nobucket st h tl htl hwt]
    | some b => rw [removeToplevel_eq_found st h tl b htl hwt]

theorem addTopLevel_sent (st : AppData) (tl : AppToplevel) :
    (addTopLevel st tl).sent = st.sent := by
  unfold addTopLevel
  exact removeToplevel_sent st tl.handle

/-! ### Claim theorems -/

/-- C9: the event channel has fixed capacity 16; send_event's try_send is
best-effort: on a full channel the event is dropped and the mirrored maps and
output selection are untouched, and on a non-full channel the event is
enqueued in FIFO order. -/
theorem C9_channel_drop (st : AppData) (ev : WaylandEvent) :
    chanCapacity = 16 ∧
    (st.chan.length ≥ chanCapacity →
      (sendEvent st ev).chan = st.chan ∧
      (sendEvent st ev).workspaces = st.workspaces ∧
      (sendEvent st ev).toplevels = st.toplevels ∧
      (sendEvent st ev).workspace_toplevels = st.workspace_toplevels ∧
      (sendEvent st ev).expected_output = st.expected_output) ∧
    (st.chan.length < chanCapacity → (sendEvent st ev).chan = st.chan ++ [ev]) := by
  refine ⟨rfl, ?_, ?_⟩
  · intro hge
    have hlt : ¬ st.chan.length < chanCapacity := by omega
    refine ⟨?_, rfl, rfl, rfl, rfl⟩
    simp [sendEvent, hlt]
  · intro hlt
    simp [sendEvent, hlt]

/-- Witness for C9 on a channel holding exactly 16 events and an empty one. -/
theorem C9_witness :
    (sendEvent stFullChan (WaylandEvent.WorkspacesChanged [])).chan = stFullChan.chan ∧
    (sendEvent (initAppData "" []) (WaylandEvent.WorkspacesChanged [])).chan =
      (initAppData "" []).chan ++ [WaylandEvent.WorkspacesChanged []] :=
  ⟨((C9_channel_drop stFullChan (WaylandEvent.WorkspacesChanged [])).2.1 (by decide)).1,
   (C9_channel_drop (initAppData "" []) (WaylandEvent.WorkspacesChanged [])).2.2 (by decide)⟩

/-- C10: in every reachable state, an index entry stores the same record as
the flat toplevel map, its bucket key is the record's ws_handle, and each
toplevel handle occurs in at most one bucket. -/
theorem C10_index_invariant (cfg : String)
    (souts : List (WlOutputId × Option String)) (tr : List (ProtocolEnv × WlMsg))
    (w : WsHandle) (h : TlHandle) (r : AppToplevel)
    (hb : bucketGet (runMsgs (initAppData cfg souts) tr) w h = some r) :
    alookup (runMsgs (initAppData cfg souts) tr).toplevels h = some r ∧
    r.ws_handle = w ∧
    (∀ w2 r2, bucketGet (runMsgs (initAppData cfg souts) tr) w2 h = some r2 → w2 = w) := by
  have hI := IndexInv_reachable cfg souts tr
  obtain ⟨hflat, hws⟩ := hI w h r hb
  refine ⟨hflat, hws, fun w2 r2 hb2 => ?_⟩
  obtain ⟨hflat2, hws2⟩ := hI w2 h r2 hb2
  rw [hflat] at hflat2
  obtain rfl : r = r2 := by simpa using hflat2
  exact hws2.symm.trans hws

/-- Witness for C10 after one created-toplevel notification. -/
theorem C10_witness :
    alookup (runMsgs (initAppData "" []) [(envNoGroups, WlMsg.newToplevel 5)]).toplevels 5 =
      some tl5Rec ∧ tl5Rec.ws_handle = 1 :=
  ⟨(C10_index_invariant "" [] [(envNoGroups, WlMsg.newToplevel 5)] 1 5 tl5Rec (by decide)).1,
   (C10_index_invariant "" [] [(envNoGroups, WlMsg.newToplevel 5)] 1 5 tl5Rec (by decide)).2.1⟩

/-- C3 counterexample: a toplevel can create an index bucket for a workspace
that never enters the mirrored set; a later batch-completion (here with no
groups) does not remove that bucket, so the index keeps a key absent from the
mirrored workspace set. -/
theorem C3_counterexample :
    ¬ (∀ (cfg : String) (souts : List (WlOutputId × Option String))
        (tr : List (ProtocolEnv × WlMsg)) (env : ProtocolEnv) (k : WsHandle),
        (alookup (runMsgs (initAppData cfg souts)
          (tr ++ [(env, WlMsg.wsDone)])).workspace_toplevels k).isSome = true →
        (alookup (runMsgs (initAppData cfg souts)
          (tr ++ [(env, WlMsg.wsDone)])).workspaces k).isSome = true) := by
  intro hcl
  have h2 := hcl "" [] [(envNoGroups, WlMsg.newToplevel 5)] envNoGroups 1 (by decide)
  revert h2
  decide

/-- C3 (amended): after a batch-completion, the index contains no entry keyed
by a workspace handle that was in the pre-batch mirrored workspace set but is
absent from the post-batch mirrored set; buckets keyed by workspaces that were
never mirrored may persist. -/
theorem C3_cascade_amended (env : ProtocolEnv) (st : AppData) (k : WsHandle)
    (hnew : alookup (wsDone env st).workspaces k = none)
    (hold : (alookup st.workspaces k).isSome = true) :
    alookup (wsDone env st).workspace_toplevels k = none := by
  by_cases he : eqm st.workspaces (computeNewWorkspaces env st) = true
  · rw [wsDone_eq_of_eqm env st he] at hnew
    rw [hnew] at hold
    simp at hold
  · have hf := wsDone_fields env st (Bool.eq_false_iff.mpr he)
    rw [hf.2.1] at hnew
    rw [hf.2.2.1]
    have hkmem : k ∈ st.workspaces.map Prod.fst := by
      by_contra hc
      have hz := (alookup_eq_none_iff st.workspaces k).mpr hc
      rw [hz] at hold
      simp at hold
    have hmem : k ∈ (st.workspaces.map Prod.fst).filter
        (fun k2 => (alookup (computeNewWorkspaces env st) k2).isNone) := by
      rw [List.mem_filter]
      exact ⟨hkmem, by simp [hnew]⟩
    exact alookup_foldl_aerase_of_mem hmem _

/-- Witness for C3: workspace 1 is mirrored, toplevel 5 occupies it, then a
batch removes workspace 1 and the bucket is cascaded away. -/
theorem C3_witness :
    alookup (wsDone envEmpty (runMsgs (initAppData "" [])
      [(envGroup1, WlMsg.wsDone), (envGroup1, WlMsg.newToplevel 5)])).workspace_toplevels
      1 = none :=
  C3_cascade_amended envEmpty
    (runMsgs (initAppData "" []) [(envGroup1, WlMsg.wsDone), (envGroup1, WlMsg.newToplevel 5)])
    1 (by decide) (by decide)

/-- C4 counterexample: cascade removal of a workspace bucket leaves its
toplevels in the flat map with no index entry, so the flat-map-to-index
direction of the claimed invariant fails. -/
theorem C4_counterexample :
    ¬ (∀ (cfg : String) (souts : List (WlOutputId × Option String))
        (tr : List (ProtocolEnv × WlMsg)),
        (∀ w h r, bucketGet (runMsgs (initAppData cfg souts) tr) w h = some r →
          alookup (runMsgs (initAppData cfg souts) tr).toplevels h = some r) ∧
        (∀ h r, alookup (runMsgs (initAppData cfg souts) tr).toplevels h = some r →
          ∃ w r2, bucketGet (runMsgs (initAppData cfg souts) tr) w h = some r2)) := by
  intro hcl
  have h2 := (hcl "" [] [(envGroup1, WlMsg.wsDone), (envGroup1, WlMsg.newToplevel 5),
      (envEmpty, WlMsg.wsDone)]).2 5 tl5Rec (by decide)
  obtain ⟨w, r2, hw⟩ := h2
  have hwt : (runMsgs (initAppData "" []) [(envGroup1, WlMsg.wsDone),
      (envGroup1, WlMsg.newToplevel 5), (envEmpty, WlMsg.wsDone)]).workspace_toplevels
      = [] := by decide
  simp [bucketGet, hwt, alookup] at hw

/-- C4 (amended): in every reachable state the index-to-flat-map direction
holds with identical records, and remove_toplevel removes the handle from both
structures in the same step; but after a workspace cascade a flat-map record
can survive with no index entry. -/
theorem C4_consistency_amended (cfg : String)
    (souts : List (WlOutputId × Option String)) (tr : List (ProtocolEnv × WlMsg))
    (h : TlHandle) :
    (∀ w h2 r, bucketGet (runMsgs (initAppData cfg souts) tr) w h2 = some r →
      alookup (runMsgs (initAppData cfg souts) tr).toplevels h2 = some r) ∧
    alookup (removeToplevel (runMsgs (initAppData cfg souts) tr) h).1.toplevels h = none ∧
    (∀ w, bucketGet (removeToplevel (runMsgs (initAppData cfg souts) tr) h).1 w h = none) := by
  have hI := IndexInv_reachable cfg souts tr
  exact ⟨fun w h2 r hb => (hI w h2 r hb).1,
    removeToplevel_toplevels_none _ h,
    fun w => removeToplevel_bucket_none _ hI h w⟩

/-- Witness for C4: the index entry for toplevel 5 matches the flat map, and
removing it clears both structures. -/
theorem C4_witness :
    alookup (runMsgs (initAppData "" []) [(envNoGroups, WlMsg.newToplevel 5)]).toplevels 5 =
      some tl5Rec ∧
    alookup (removeToplevel (runMsgs (initAppData "" [])
      [(envNoGroups, WlMsg.newToplevel 5)]) 5).1.toplevels 5 = none :=
  ⟨(C4_consistency_amended "" [] [(envNoGroups, WlMsg.newToplevel 5)] 5).1 1 5 tl5Rec
      (by decide),
   (C4_consistency_amended "" [] [(envNoGroups, WlMsg.newToplevel 5)] 5).2.1⟩

/-- C1 counterexample: a second created-toplevel notification resolving to a
record value-identical to the stored one still emits, producing two
consecutive ToplevelsUpdated events with value-equal payloads. -/
theorem C1_counterexample :
    ¬ (∀ (cfg : String) (souts : List (WlOutputId × Option String))
        (tr : List (ProtocolEnv × WlMsg)),
        suppressionOK (runMsgs (initAppData cfg souts) tr).sent = true) := by
  intro hcl
  have h2 := hcl "" [] [(envNoGroups, WlMsg.newToplevel 5), (envNoGroups, WlMsg.newToplevel 5)]
  revert h2
  decide

/-- C1 (amended): update_toplevel emits only when the resolved record differs
from the stored record at its index slot, done emits only when the recomputed
workspace map differs from the stored one, toplevel_closed emits only when a
stored record was actually removed, but new_toplevel emits unconditionally
whenever its info resolves, even when the record is value-identical to the
stored one. -/
theorem C1_suppression_amended (env : ProtocolEnv) (st : AppData) (h : TlHandle) :
    ((updateToplevel env st h).sent ≠ st.sent →
      ∃ r, getToplevelFromHandle env st h = some r ∧
        getMatchingToplevel st r ≠ some r) ∧
    ((wsDone env st).sent ≠ st.sent →
      eqm st.workspaces (computeNewWorkspaces env st) = false) ∧
    ((toplevelClosed env st h).sent ≠ st.sent →
      ∃ r, getToplevelFromHandle env st h = some r ∧
        (alookup st.toplevels r.handle).isSome = true) ∧
    (∀ r, getToplevelFromHandle env st h = some r →
      (newToplevel env st h).sent = st.sent ++
        [WaylandEvent.ToplevelsUpdated (addTopLevel st r).workspace_toplevels]) := by
  refine ⟨?_, ?_, ?_, ?_⟩
  · intro hne
    cases hg : getToplevelFromHandle env st h with
    | none =>
      rw [updateToplevel_eq_none env st h hg] at hne
      exact absurd rfl hne
    | some tl =>
      by_cases hm : getMatchingToplevel st tl = some tl
      · rw [updateToplevel_eq_same env st h tl hg hm] at hne
        exact absurd rfl hne
      · exact ⟨tl, rfl, hm⟩
  · intro hne
    by_cases he : eqm st.workspaces (computeNewWorkspaces env st) = true
    · rw [wsDone_eq_of_eqm env st he] at hne
      exact absurd rfl hne
    · exact Bool.eq_false_iff.mpr he
  · intro hne
    cases hg : getToplevelFromHandle env st h with
    | none =>
      rw [toplevelClosed_eq_none env st h hg] at hne
      exact absurd rfl hne
    | some tl =>
      cases htl : alookup st.toplevels tl.handle with
      | none =>
        have hr : (removeToplevel st tl.handle).2 = false := by
          rw [removeToplevel_eq_notfound st tl.handle htl]
        rw [toplevelClosed_eq_notfound env st h tl hg hr,
          removeToplevel_eq_notfound st tl.handle htl] at hne
        exact absurd rfl hne
      | some old => exact ⟨tl, rfl, by simp [htl]⟩
  · intro r hg
    rw [newToplevel_eq_some env st h r hg]
    simp [sendEvent, addTopLevel_sent]

/-- Witness for C1 (amended) on a state with a stale stored record. -/
theorem C1_witness :
    (∃ r, getToplevelFromHandle envGroup1 stWithTl5Old 5 = some r ∧
      getMatchingToplevel stWithTl5Old r ≠ some r) ∧
    eqm stWithTl5Old.workspaces (computeNewWorkspaces envGroup1 stWithTl5Old) = false ∧
    (∃ r, getToplevelFromHandle envGroup1 stWithTl5Old 5 = some r ∧
      (alookup stWithTl5Old.toplevels r.handle).isSome = true) ∧
    (newToplevel envGroup1 stWithTl5Old 5).sent = stWithTl5Old.sent ++
      [WaylandEvent.ToplevelsUpdated (addTopLevel stWithTl5Old tl5Rec).workspace_toplevels] :=
  ⟨(C1_suppression_amended envGroup1 stWithTl5Old 5).1 (by decide),
   (C1_suppression_amended envGroup1 stWithTl5Old 5).2.1 (by decide),
   (C1_suppression_amended envGroup1 stWithTl5Old 5).2.2.1 (by decide),
   (C1_suppression_amended envGroup1 stWithTl5Old 5).2.2.2 tl5Rec (by decide)⟩

/-- C2 counterexample: toplevel_closed resolves via fresh protocol info, not
the flat map; with the record still in the flat map but no fresh info, the
close notification is ignored instead of removing and emitting. -/
theorem C2_counterexample :
    ¬ (∀ (env : ProtocolEnv) (st : AppData) (h : TlHandle),
        ((alookup st.toplevels h).isSome = true →
          alookup (toplevelClosed env st h).toplevels h = none ∧
          (toplevelClosed env st h).sent.length = st.sent.length + 1) ∧
        ((alookup st.toplevels h).isSome = false → toplevelClosed env st h = st)) := by
  intro hcl
  have h2 := (hcl envEmpty stWithTl5Old 5).1 (by decide)
  revert h2
  decide

/-- C2 (amended): toplevel_closed resolves the handle from fresh protocol
info; if that fails nothing changes and nothing is emitted; otherwise the
record is removed from the flat map when present, its bucket entry is removed
when the bucket exists, and an event is emitted exactly when both the flat
record and its bucket existed. -/
theorem C2_closed_amended (env : ProtocolEnv) (st : AppData) (h : TlHandle) :
    (getToplevelFromHandle env st h = none → toplevelClosed env st h = st) ∧
    (∀ r, getToplevelFromHandle env st h = some r →
      (alookup st.toplevels r.handle = none → toplevelClosed env st h = st) ∧
      (∀ old, alookup st.toplevels r.handle = some old →
        alookup (toplevelClosed env st h).toplevels r.handle = none ∧
        (alookup st.workspace_toplevels old.ws_handle = none →
          (toplevelClosed env st h).sent = st.sent) ∧
        (∀ b, alookup st.workspace_toplevels old.ws_handle = some b →
          bucketGet (toplevelClosed env st h) old.ws_handle r.handle = none ∧
          (toplevelClosed env st h).sent = st.sent ++
            [WaylandEvent.ToplevelsUpdated
              (toplevelClosed env st h).workspace_toplevels]))) := by
  constructor
  · intro hg
    exact toplevelClosed_eq_none env st h hg
  · intro r hg
    constructor
    · intro hnone
      have hr : (removeToplevel st r.handle).2 = false := by
        rw [removeToplevel_eq_notfound st r.handle hnone]
      rw [toplevelClosed_eq_notfound env st h r hg hr,
        removeToplevel_eq_notfound st r.handle hnone]
    · intro old hold
      cases hwt : alookup st.workspace_toplevels old.ws_handle with
      | none =>
        have hr : (removeToplevel st r.handle).2 = false := by
          rw [removeToplevel_eq_nobucket st r.handle old hold hwt]
        rw [toplevelClosed_eq_notfound env st h r hg hr]
        refine ⟨removeToplevel_toplevels_none st r.handle, ?_, ?_⟩
        · intro _
          exact removeToplevel_sent st r.handle
        · intro b hb
          exact absurd hb (by simp)
      | some b =>
        have hr : (removeToplevel st r.handle).2 = true := by
          rw [removeToplevel_eq_found st r.handle old b hold hwt]
        rw [toplevelClosed_eq_found env st h r hg hr]
        refine ⟨removeToplevel_toplevels_none st r.handle, ?_, ?_⟩
        · intro hb
          exact absurd hb (by simp)
        · intro b2 hb2
          obtain rfl : b = b2 := by simpa using hb2
          constructor
          · rw [removeToplevel_eq_found st r.handle old b hold hwt]
            unfold sendEvent bucketGet
            simp only [alookup_ainsert_self]
            exact alookup_aerase_self _ _
          · rw [removeToplevel_eq_found st r.handle old b hold hwt]
            simp [sendEvent]

/-- Witness for C2 (amended) on a state holding toplevel 5 in workspace 1. -/
theorem C2_witness :
    alookup (toplevelClosed envGroup1 stWithTl5Old 5).toplevels 5 = none ∧
    bucketGet (toplevelClosed envGroup1 stWithTl5Old 5) 1 5 = none ∧
    (toplevelClosed envGroup1 stWithTl5Old 5).sent = stWithTl5Old.sent ++
      [WaylandEvent.ToplevelsUpdated
        (toplevelClosed envGroup1 stWithTl5Old 5).workspace_toplevels] :=
  ⟨(((C2_closed_amended envGroup1 stWithTl5Old 5).2 tl5Rec (by decide)).2 tl5RecOld
      (by decide)).1,
   ((((C2_closed_amended envGroup1 stWithTl5Old 5).2 tl5Rec (by decide)).2 tl5RecOld
      (by decide)).2.2 [(5, tl5RecOld)] (by decide)).1,
   ((((C2_closed_amended envGroup1 stWithTl5Old 5).2 tl5Rec (by decide)).2 tl5RecOld
      (by decide)).2.2 [(5, tl5RecOld)] (by decide)).2⟩

/-- C5 counterexample: a later output advertisement whose name matches the
configured name overrides an already-resolved expected output. -/
theorem C5_counterexample :
    ¬ (∀ (env : ProtocolEnv) (st : AppData) (o : WlOutputId),
        st.expected_output.isSome = true →
        (newOutput env st o).expected_output = st.expected_output) := by
  intro hcl
  have h2 := hcl envOutputA stConfA 1 (by decide)
  revert h2
  decide

/-- C5 (amended): the startup scan takes the first advertised output whose
name matches the configured name, or the first output seen when no name is
configured; each later output-advertised notification whose name equals the
configured name sets the expected output to that output, overriding any prior
resolution, and non-matching advertisements leave it unchanged. -/
theorem C5_output_amended :
    (∀ (env : ProtocolEnv) (st : AppData) (o : WlOutputId) (nm : Option String),
      alookup env.outputInfos o = some nm →
      (newOutput env st o).expected_output =
        (if nm = some st.configured_output then some o else st.expected_output)) ∧
    (∀ (cfg : String) (o : WlOutputId) (nm : Option String)
        (rest : List (WlOutputId × Option String)),
      (cfg = "" ∨ nm = some cfg) →
      initExpectedOutput cfg ((o, nm) :: rest) = some o) ∧
    (∀ (cfg : String) (o : WlOutputId) (nm : Option String)
        (rest : List (WlOutputId × Option String)),
      ¬ (cfg = "" ∨ nm = some cfg) →
      initExpectedOutput cfg ((o, nm) :: rest) = initExpectedOutput cfg rest) := by
  refine ⟨?_, ?_, ?_⟩
  · intro env st o nm ho
    by_cases hm : nm = some st.configured_output
    · rw [newOutput_eq_match env st o nm ho hm, if_pos hm]
    · rw [newOutput_eq_nomatch env st o nm ho hm, if_neg hm]
  · intro cfg o nm rest hc
    unfold initExpectedOutput
    exact if_pos hc
  · intro cfg o nm rest hc
    have hstep : initExpectedOutput cfg ((o, nm) :: rest) =
        if cfg = "" ∨ nm = some cfg then some o else initExpectedOutput cfg rest := rfl
    rw [hstep, if_neg hc]

/-- Witness for C5 (amended): the matching advertisement overrides output 0
with output 1, and the startup scan picks the first (matching) entry. -/
theorem C5_witness :
    (newOutput envOutputA stConfA 1).expected_output =
      (if (some "A" : Option String) = some stConfA.configured_output then some 1
       else stConfA.expected_output) ∧
    initExpectedOutput "" [(3, some "X")] = some 3 ∧
    initExpectedOutput "A" [(3, some "X"), (4, some "A")] =
      initExpectedOutput "A" [(4, some "A")] :=
  ⟨C5_output_amended.1 envOutputA stConfA 1 (some "A") (by decide),
   C5_output_amended.2.1 "" 3 (some "X") [] (Or.inl rfl),
   C5_output_amended.2.2 "A" 3 (some "X") [(4, some "A")] (by decide)⟩

/-- C6 counterexample: with no expected output resolved, a workspace group
with an empty member-output list is excluded, not kept, because any() over an
empty list is false. -/
theorem C6_counterexample :
    ¬ (∀ (st : AppData) (g : WorkspaceGroup),
        groupIncluded st g = true ↔
          (st.expected_output = none ∨ ∃ o ∈ g.outputs, st.expected_output = some o)) := by
  intro hcl
  have h2 := (hcl (initAppData "" []) { outputs := [], workspaces := [1] }).2
    (Or.inl (by decide))
  revert h2
  decide

/-- C6 (amended): a group passes done's gate iff some member output passes
is_active_output, i.e. iff some member output is the expected output or — when
no expected output is resolved — iff the member-output list is nonempty; only
gated groups contribute keys to the recomputed workspace set. -/
theorem C6_group_filter_amended :
    (∀ (st : AppData) (g : WorkspaceGroup),
      groupIncluded st g = true ↔
        ((st.expected_output = none ∧ g.outputs ≠ []) ∨
         ∃ o ∈ g.outputs, st.expected_output = some o)) ∧
    (∀ (env : ProtocolEnv) (st : AppData) (k : WsHandle),
      (alookup (computeNewWorkspaces env st) k).isSome = true →
      ∃ g ∈ env.workspaceGroups, groupIncluded st g = true) := by
  constructor
  · intro st g
    unfold groupIncluded isActiveOutput
    rw [List.any_eq_true]
    constructor
    · rintro ⟨o, ho, hP⟩
      rw [Bool.or_eq_true] at hP
      rcases hP with h1 | h1
      · refine Or.inl ⟨Option.isNone_iff_eq_none.mp h1, ?_⟩
        intro he
        rw [he] at ho
        simp at ho
      · exact Or.inr ⟨o, ho, by simpa using h1⟩
    · rintro (⟨hn, hne⟩ | ⟨o, ho, he⟩)
      · obtain ⟨o, ho⟩ := List.exists_mem_of_ne_nil g.outputs hne
        exact ⟨o, ho, by simp [hn]⟩
      · exact ⟨o, ho, by simp [he]⟩
  · intro env st k h
    exact computeNewWorkspaces_key_origin env st k h

/-- Witness for C6 (amended): a group containing the expected output passes
the gate, and a key of the recomputed set always has a gated source group. -/
theorem C6_witness :
    groupIncluded stConfA { outputs := [0, 2], workspaces := [1] } = true ∧
    (∃ g ∈ envGroup1.workspaceGroups, groupIncluded (initAppData "" []) g = true) :=
  ⟨(C6_group_filter_amended.1 stConfA { outputs := [0, 2], workspaces := [1] }).mpr
      (Or.inr ⟨0, by decide, by decide⟩),
   C6_group_filter_amended.2 envGroup1 (initAppData "" []) 1 (by decide)⟩

/-- C7 counterexample: a created toplevel whose info resolves but reports zero
workspace memberships is dropped (no flat-map entry), not assigned to a
sentinel bucket. -/
theorem C7_counterexample :
    ¬ (∀ (env : ProtocolEnv) (st : AppData) (h : TlHandle) (info : ToplevelInfo),
        alookup env.toplevelInfos h = some info →
        (∀ wh ∈ info.workspace, getWorkspaceFromHandle env wh = none) →
        (alookup (newToplevel env st h).toplevels h).isSome = true) := by
  intro hcl
  have h2 := hcl envNoWsMembership (initAppData "" []) 5 tlInfo5NoWs (by decide)
    (by simp [tlInfo5NoWs])
  revert h2
  decide

/-- C7 (amended): a created-toplevel notification whose info resolves but
whose reported workspace handles all fail to resolve (in particular an empty
membership list) is ignored: no insertion into the flat map or the index and
no emission. -/
theorem C7_dropped_amended (env : ProtocolEnv) (st : AppData) (h : TlHandle)
    (info : ToplevelInfo) (hinfo : alookup env.toplevelInfos h = some info)
    (hws : ∀ wh ∈ info.workspace, getWorkspaceFromHandle env wh = none) :
    newToplevel env st h = st := by
  apply newToplevel_eq_none
  unfold getToplevelFromHandle
  rw [hinfo]
  have hfm : info.workspace.filterMap (getWorkspaceFromHandle env) = [] :=
    List.filterMap_eq_nil_iff.mpr hws
  simp [hfm]

/-- Witness for C7 on a toplevel reporting zero workspace memberships. -/
theorem C7_witness :
    newToplevel envNoWsMembership (initAppData "" []) 5 = initAppData "" [] :=
  C7_dropped_amended envNoWsMembership (initAppData "" []) 5 tlInfo5NoWs (by decide)
    (by simp [tlInfo5NoWs])

/-- C8 counterexample: two discovery orders of the same two workspaces that
share a name produce different emitted WorkspacesChanged orders, because the
sort key is the name alone and ties keep map iteration order. -/
theorem C8_counterexample :
    ¬ (∀ (st : AppData) (e1 e2 : ProtocolEnv),
        eqm (computeNewWorkspaces e1 st) (computeNewWorkspaces e2 st) = true →
        (wsDone e1 st).sent = (wsDone e2 st).sent) := by
  intro hcl
  have h2 := hcl (initAppData "" []) envOrder12 envOrder21 (by decide)
  revert h2
  decide

/-- C8 (amended): the emitted list is the stable name-sort of the workspace
map's values; whenever the mirrored workspaces carry pairwise-distinct names,
the emitted order is a function of the workspace set alone, identical across
discovery orders; with duplicate names the tie order follows map iteration
order. -/
theorem C8_order_amended (st : AppData) (e1 e2 : ProtocolEnv)
    (he : eqm (computeNewWorkspaces e1 st) (computeNewWorkspaces e2 st) = true)
    (hn : ((computeNewWorkspaces e1 st).map (fun p => p.2.name)).Nodup) :
    sortWorkspaces ((computeNewWorkspaces e1 st).map Prod.snd) =
    sortWorkspaces ((computeNewWorkspaces e2 st).map Prod.snd) := by
  have h1 := keysNodup_computeNewWorkspaces e1 st
  have h2 := keysNodup_computeNewWorkspaces e2 st
  have hperm : (computeNewWorkspaces e1 st).Perm (computeNewWorkspaces e2 st) :=
    perm_of_lookup_eq h1 h2 (eqm_lookup he)
  apply sortWorkspaces_eq_of_perm (hperm.map Prod.snd)
  rw [List.map_map]
  exact hn

/-- Witness for C8 (amended) on distinct names "a" and "b" discovered in the
two opposite orders. -/
theorem C8_witness :
    sortWorkspaces ((computeNewWorkspaces envDistinct12 (initAppData "" [])).map Prod.snd) =
    sortWorkspaces ((computeNewWorkspaces envDistinct21 (initAppData "" [])).map Prod.snd) :=
  C8_order_amended (initAppData "" []) envDistinct12 envDistinct21 (by decide) (by decide)
